import Mathlib

/-!
Verification of the OpenSearch vector-store adapters of open-webui
(`backend/open_webui/retrieval/vector/dbs/opensearch.py`, the per-collection
adapter, and `opensearch2.py`, the global-index adapter).

The adapters are pure glue: they build engine requests (index creation,
bulk writes, searches) and reshape engine responses.  We embed them
shallowly: the external engine is represented by the list of index names
that exist (`EngineState`), engine responses (hit lists) are passed in as
parameters, and each adapter method is a Lean function returning the
requests it issues together with its result, or a `PyErr` for the Python
exceptions that can escape.  Vector entries (Python floats), metadata
dictionaries and filter values are opaque type parameters: the adapter
never computes with them, it only moves them around.
-/

namespace OWVec

/-- Namespace string prepended to every engine index name
(`self.index_prefix = "open_webui"` in both adapters). -/
def ow_ns : String := "open_webui"

/-- `VectorItem`: the caller-provided record inserted into the store.
`Flt` stands for the float type, `Meta` for the untyped metadata mapping. -/
structure VectorItem (Flt Meta : Type) where
  id : String
  vector : List Flt
  text : String
  metadata : Meta
deriving Repr, DecidableEq

/-- One hit of an engine response: `hit["_id"]`, `hit["_score"]`, and
`hit["_source"].get("text")` / `hit["_source"].get("metadata")` (the
`dict.get` calls return `None` when the key is absent, hence `Option`). -/
structure Hit (Flt Meta : Type) where
  id : String
  score : Flt
  text : Option String
  metadata : Option Meta
deriving Repr, DecidableEq

/-- `GetResult`: parallel sequences built from an engine response. -/
structure GetResult (Meta : Type) where
  ids : List String
  documents : List (Option String)
  metadatas : List (Option Meta)
deriving Repr, DecidableEq

/-- `SearchResult`: `GetResult` plus the hit scores as `distances`. -/
structure SearchResult (Flt Meta : Type) where
  ids : List String
  distances : List Flt
  documents : List (Option String)
  metadatas : List (Option Meta)
deriving Repr, DecidableEq

/-- `OpenSearchClient._result_to_get_result`: one pass over
`result["hits"]["hits"]`, appending `_id`, `_source.get("text")` and
`_source.get("metadata")` to three parallel lists. -/
def result_to_get_result {Flt Meta : Type} (hits : List (Hit Flt Meta)) :
    GetResult Meta :=
  { ids := hits.map Hit.id
    documents := hits.map Hit.text
    metadatas := hits.map Hit.metadata }

/-- `OpenSearchClient._result_to_search_result`: as above, also appending
`hit["_score"]` to `distances`. -/
def result_to_search_result {Flt Meta : Type} (hits : List (Hit Flt Meta)) :
    SearchResult Flt Meta :=
  { ids := hits.map Hit.id
    distances := hits.map Hit.score
    documents := hits.map Hit.text
    metadatas := hits.map Hit.metadata }

/-- Python `range(0, stop, step)` for `step > 0`: the multiples of `step`
below `stop`, in increasing order. -/
def pyRange (stop step : Nat) : List Nat :=
  (List.range ((stop + step - 1) / step)).map (fun k => k * step)

/-- `OpenSearchClient._create_batches(items, batch_size=100)`:
`for i in range(0, len(items), batch_size): yield items[i : i + batch_size]`.
The Python slice `items[i : i + batch_size]` is `(items.drop i).take batch_size`. -/
def create_batches {T : Type} (items : List T) (batch_size : Nat) :
    List (List T) :=
  (pyRange items.length batch_size).map
    (fun i => (items.drop i).take batch_size)

/-- Structural companion of `create_batches`: peel `batch_size` elements
at a time.  Used only to give induction proofs a handle. -/
def chunksOf {T : Type} (batch_size : Nat) : List T → List (List T)
  | [] => []
  | a :: tl =>
    if batch_size = 0 then []
    else (a :: tl).take batch_size :: chunksOf batch_size (tl.drop (batch_size - 1))
termination_by items => items.length
decreasing_by
  simp only [List.length_drop, List.length_cons]
  omega

theorem chunksOf_nil {T : Type} (batch_size : Nat) :
    chunksOf batch_size ([] : List T) = [] := by
  rw [chunksOf]

theorem drop_bs_cons {T : Type} (batch_size : Nat) (hb : batch_size ≠ 0)
    (a : T) (tl : List T) :
    (a :: tl).drop batch_size = tl.drop (batch_size - 1) := by
  cases batch_size with
  | zero => exact absurd rfl hb
  | succ k => simp

theorem chunksOf_cons {T : Type} (batch_size : Nat) (hb : batch_size ≠ 0)
    (a : T) (tl : List T) :
    chunksOf batch_size (a :: tl) =
      (a :: tl).take batch_size :: chunksOf batch_size ((a :: tl).drop batch_size) := by
  rw [chunksOf]
  rw [if_neg hb]
  rw [drop_bs_cons batch_size hb]

theorem chunksOf_eq_nil_iff {T : Type} (batch_size : Nat) (hb : batch_size ≠ 0)
    (items : List T) : chunksOf batch_size items = [] ↔ items = [] := by
  cases items with
  | nil => simp [chunksOf_nil]
  | cons a tl => simp [chunksOf_cons batch_size hb]

/-- Recurrence for the ceiling division counting the chunks. -/
theorem ceil_div_rec (n bs : Nat) (hb : 0 < bs) (hn : 0 < n) :
    (n + bs - 1) / bs = (n - bs + bs - 1) / bs + 1 := by
  have h1 : n + bs - 1 = (n - 1) + bs := by omega
  rw [h1, Nat.add_div_right _ hb]
  rcases le_or_lt n bs with hle | hgt
  · have h2 : n - bs + bs - 1 = bs - 1 := by omega
    rw [h2]
    rw [Nat.div_eq_of_lt (by omega : n - 1 < bs),
      Nat.div_eq_of_lt (by omega : bs - 1 < bs)]
  · have h2 : n - bs + bs - 1 = n - 1 := by omega
    rw [h2]

/-- The closed-form `create_batches` agrees with the structural `chunksOf`. -/
theorem create_batches_eq_chunksOf {T : Type} (batch_size : Nat)
    (hb : 0 < batch_size) (items : List T) :
    create_batches items batch_size = chunksOf batch_size items := by
  induction items using chunksOf.induct batch_size with
  | case1 =>
    simp only [create_batches, pyRange, List.length_nil, chunksOf_nil]
    rw [Nat.div_eq_of_lt (by omega : 0 + batch_size - 1 < batch_size)]
    simp
  | case2 a tl hz =>
    omega
  | case3 a tl hz ih =>
    have hdrop := drop_bs_cons batch_size hz a tl
    rw [← hdrop] at ih
    rw [chunksOf_cons batch_size hz]
    simp only [create_batches, pyRange, List.map_map]
    rw [ceil_div_rec _ _ hb (by simp), List.range_succ_eq_map,
      List.map_cons, List.map_map]
    congr 1
    · simp
    · rw [← ih]
      simp only [create_batches, pyRange, List.map_map]
      rw [List.length_drop]
      apply List.map_congr_left
      intro k _
      simp only [Function.comp]
      rw [List.drop_drop, Nat.succ_mul, Nat.add_comm]

/-- Concatenating the chunks gives back the original list. -/
theorem chunksOf_flatten {T : Type} (batch_size : Nat) (hb : 0 < batch_size)
    (items : List T) :
    (chunksOf batch_size items).flatten = items := by
  induction items using chunksOf.induct batch_size with
  | case1 => simp [chunksOf_nil]
  | case2 a tl hz => omega
  | case3 a tl hz ih =>
    have hdrop := drop_bs_cons batch_size hz a tl
    rw [← hdrop] at ih
    rw [chunksOf_cons batch_size hz]
    rw [List.flatten_cons, ih]
    exact List.take_append_drop _ _

/-- Every chunk has at most `batch_size` elements. -/
theorem chunksOf_length_le {T : Type} (batch_size : Nat) (items : List T)
    (b : List T) (hmem : b ∈ chunksOf batch_size items) :
    b.length ≤ batch_size := by
  induction items using chunksOf.induct batch_size with
  | case1 =>
    rw [chunksOf_nil] at hmem
    simp at hmem
  | case2 a tl hz =>
    rw [chunksOf] at hmem
    simp [hz] at hmem
  | case3 a tl hz ih =>
    have hdrop := drop_bs_cons batch_size hz a tl
    rw [← hdrop] at ih
    rw [chunksOf_cons batch_size hz] at hmem
    rcases List.mem_cons.mp hmem with h | h
    · subst h
      exact List.length_take_le _ _
    · exact ih h

/-- Every chunk except possibly the last has exactly `batch_size` elements. -/
theorem chunksOf_dropLast_length {T : Type} (batch_size : Nat)
    (hb : batch_size ≠ 0) (items : List T)
    (b : List T) (hmem : b ∈ (chunksOf batch_size items).dropLast) :
    b.length = batch_size := by
  induction items using chunksOf.induct batch_size with
  | case1 =>
    rw [chunksOf_nil] at hmem
    simp at hmem
  | case2 a tl hz => omega
  | case3 a tl hz ih =>
    have hdrop := drop_bs_cons batch_size hz a tl
    rw [← hdrop] at ih
    rw [chunksOf_cons batch_size hz] at hmem
    rcases hrest : chunksOf batch_size ((a :: tl).drop batch_size) with _ | ⟨c, cs⟩
    · rw [hrest] at hmem
      simp at hmem
    · rw [hrest, List.dropLast_cons₂] at hmem
      rcases List.mem_cons.mp hmem with h | h
      · subst h
        rw [List.length_take]
        have hne : (a :: tl).drop batch_size ≠ [] := by
          intro hcon
          rw [hcon, chunksOf_nil] at hrest
          exact List.noConfusion hrest
        have hlt : batch_size < (a :: tl).length := by
          by_contra hcon
          push_neg at hcon
          exact hne (List.drop_eq_nil_of_le hcon)
        omega
      · apply ih
        rw [hrest]
        exact h

/-- The number of chunks is `⌈ items.length / batch_size ⌉`. -/
theorem create_batches_count {T : Type} (items : List T) (batch_size : Nat) :
    (create_batches items batch_size).length =
      (items.length + batch_size - 1) / batch_size := by
  simp [create_batches, pyRange]

/-! ### The engine-facing request model -/

/-- The `"method"` sub-object of the dense-vector mapping in `_create_index`. -/
structure HnswMethod where
  name : String
  space_type : String
  engine : String
  ef_construction : Nat
  m : Nat
deriving Repr, DecidableEq

/-- The mappings body passed to `indices.create`.  `vector_index_field` is
the stray `"index"` key present only in the per-collection variant's body. -/
structure IndexMappings where
  vector_type : String
  dims : Nat
  vector_index_field : Option String
  similarity : String
  method : HnswMethod
deriving Repr, DecidableEq

/-- One action line of a bulk request body. -/
inductive BulkAction (Flt Meta : Type) where
  | indexDoc (id : String) (vector : List Flt) (text : String) (metadata : Meta)
  | updateDoc (id : String) (indexName : String) (vector : List Flt)
      (text : String) (metadata : Meta) (doc_as_upsert : Bool)
  | deleteDoc (indexName : String) (id : String)
deriving Repr, DecidableEq

/-- The query DSL fragments the adapters build.  `boolFilter fs` is the
`{"bool": {"filter": [...]}}` body whose filter list holds one
`{"term": {field: value}}` clause per pair of `fs`, in order. -/
inductive QueryDSL (Flt Val : Type) where
  | matchAll
  | scriptScore (inner : QueryDSL Flt Val) (script_source : String)
      (params_vector : List Flt)
  | boolFilter (filters : List (String × Val))
deriving Repr, DecidableEq

/-- A search request body: optional top-level `"size"`, the `_source`
projection list, and the query. -/
structure SearchBody (Flt Val : Type) where
  size : Option Nat
  source_fields : List String
  query : QueryDSL Flt Val
deriving Repr, DecidableEq

/-- A request issued to the engine client.  `bulk`'s first argument is the
`index=` keyword (absent when the adapter passes only the action list);
`searchReq`'s last argument is the `size=` keyword of `client.search`. -/
inductive EngineRequest (Flt Meta Val : Type) where
  | indicesExists (index : String)
  | indicesCreate (index : String) (mappings : IndexMappings)
  | indicesDelete (index : String)
  | bulk (index : Option String) (body : List (BulkAction Flt Meta))
  | searchReq (index : String) (body : SearchBody Flt Val) (size_kw : Option Nat)
deriving Repr, DecidableEq

/-- Python exceptions the adapters can raise. -/
inductive PyErr where
  | indexError
  | valueError (msg : String)
deriving Repr, DecidableEq

/-- The engine, abstracted to the set of index names that exist. -/
abbrev EngineState := List String

/-- The `script_score` script of both `search` implementations. -/
def cosine_script_source : String :=
  "cosineSimilarity(params.vector, \x27vector\x27) + 1.0"

/-! ### The per-collection adapter (`opensearch.py`) -/

/-- `self.hash_to_index_map`, an insertion-ordered dictionary. -/
abbrev Cache := List (String × String)

/-- `OpenSearchClient._generate_index_name`: insert
`f"{self.index_prefix}_{collection_name}"` on a cache miss, then return the
cached entry. -/
def generate_index_name (cache : Cache) (collection_name : String) :
    Cache × String :=
  match cache.lookup collection_name with
  | some v => (cache, v)
  | none =>
      (cache ++ [(collection_name, ow_ns ++ "_" ++ collection_name)],
       ow_ns ++ "_" ++ collection_name)

/-- The mappings body built by `OpenSearchClient._create_index` in
`opensearch.py`. -/
def create_index_body (collection_name : String) (dimension : Nat) :
    IndexMappings :=
  { vector_type := "dense_vector"
    dims := dimension
    vector_index_field := some (ow_ns ++ "_" ++ collection_name)
    similarity := "faiss"
    method := { name := "hnsw", space_type := "ip", engine := "faiss",
                ef_construction := 128, m := 16 } }

variable {Flt Meta Val : Type}

/-- `OpenSearchClient._create_index`: derive the index name, skip when the
index exists, otherwise issue `indices.create`.  Returns the new engine
state, the new cache and the requests issued. -/
def create_index (st : EngineState) (cache : Cache) (collection_name : String)
    (dimension : Nat) :
    EngineState × Cache × List (EngineRequest Flt Meta Val) :=
  let p := generate_index_name cache collection_name
  if st.contains p.2 then
    (st, p.1, [.indicesExists p.2])
  else
    (p.2 :: st, p.1,
     [.indicesExists p.2,
      .indicesCreate p.2 (create_index_body collection_name dimension)])

/-- `OpenSearchClient.has_collection`: engine-side existence check of the
prefixed index name. -/
def has_collection (st : EngineState) (collection_name : String) : Bool :=
  st.contains (ow_ns ++ "_" ++ collection_name)

/-- `OpenSearchClient.get_or_create_index`: create only when
`has_collection` is false. -/
def get_or_create_index (st : EngineState) (cache : Cache)
    (collection_name : String) (dimension : Nat) :
    EngineState × Cache × List (EngineRequest Flt Meta Val) :=
  if has_collection st collection_name then
    (st, cache, [.indicesExists (ow_ns ++ "_" ++ collection_name)])
  else
    let r : EngineState × Cache × List (EngineRequest Flt Meta Val) :=
      create_index st cache collection_name dimension
    (r.1, r.2.1, .indicesExists (ow_ns ++ "_" ++ collection_name) :: r.2.2)

/-- One `{"index": ...}` bulk action for a `VectorItem` (used by `insert`). -/
def item_index_action (item : VectorItem Flt Meta) : BulkAction Flt Meta :=
  .indexDoc item.id item.vector item.text item.metadata

/-- One `{"update": ..., "doc_as_upsert": true}` bulk action for a
`VectorItem` (used by `upsert`). -/
def item_update_action (index_name : String) (item : VectorItem Flt Meta) :
    BulkAction Flt Meta :=
  .updateDoc item.id index_name item.vector item.text item.metadata true

/-- `OpenSearchClient.insert`: derive the index name; on a missing index,
create it with dimension `len(items[0]["vector"])` (an `IndexError` when
`items` is empty); then one bulk request per batch of 100. -/
def insert (st : EngineState) (cache : Cache) (collection_name : String)
    (items : List (VectorItem Flt Meta)) :
    Except PyErr (EngineState × Cache × List (EngineRequest Flt Meta Val)) :=
  let p := generate_index_name cache collection_name
  if st.contains p.2 then
    .ok (st, p.1,
      .indicesExists p.2 ::
        (create_batches items 100).map
          (fun batch => .bulk none (batch.map item_index_action)))
  else
    match items with
    | [] => .error .indexError
    | it :: _ =>
      let r : EngineState × Cache × List (EngineRequest Flt Meta Val) :=
        create_index st p.1 collection_name it.vector.length
      .ok (r.1, r.2.1,
        .indicesExists p.2 :: r.2.2 ++
          (create_batches items 100).map
            (fun batch => .bulk none (batch.map item_index_action)))

/-- `OpenSearchClient.upsert`: as `insert`, but each action is an `update`
with `doc_as_upsert` and an explicit `_index`. -/
def upsert (st : EngineState) (cache : Cache) (collection_name : String)
    (items : List (VectorItem Flt Meta)) :
    Except PyErr (EngineState × Cache × List (EngineRequest Flt Meta Val)) :=
  let p := generate_index_name cache collection_name
  if st.contains p.2 then
    .ok (st, p.1,
      .indicesExists p.2 ::
        (create_batches items 100).map
          (fun batch => .bulk none (batch.map (item_update_action p.2))))
  else
    match items with
    | [] => .error .indexError
    | it :: _ =>
      let r : EngineState × Cache × List (EngineRequest Flt Meta Val) :=
        create_index st p.1 collection_name it.vector.length
      .ok (r.1, r.2.1,
        .indicesExists p.2 :: r.2.2 ++
          (create_batches items 100).map
            (fun batch => .bulk none (batch.map (item_update_action p.2))))

/-- `OpenSearchClient.search`: a `script_score` query over `match_all`
scoring with the cosine script against `vectors[0]` (an `IndexError` when
`vectors` is empty), `size` = `limit`; the engine response `hits` is passed
in and reshaped. -/
def search (cache : Cache) (collection_name : String)
    (vectors : List (List Flt)) (limit : Nat) (hits : List (Hit Flt Meta)) :
    Except PyErr (Cache × EngineRequest Flt Meta Val × SearchResult Flt Meta) :=
  let p := generate_index_name cache collection_name
  match vectors with
  | [] => .error .indexError
  | v0 :: _ =>
    .ok (p.1,
      .searchReq p.2
        { size := some limit
          source_fields := ["text", "metadata"]
          query := .scriptScore .matchAll cosine_script_source v0 }
        none,
      result_to_search_result hits)

/-- `OpenSearchClient.query`: `None` without a search when the collection's
index does not exist; otherwise a `bool`/`filter` body with one `term`
clause per filter entry and `size = limit if limit else 10` passed as the
`size=` keyword. -/
def query (st : EngineState) (cache : Cache) (collection_name : String)
    (filter : List (String × Val)) (limit : Option Nat)
    (hits : List (Hit Flt Meta)) :
    Cache × List (EngineRequest Flt Meta Val) × Option (GetResult Meta) :=
  if has_collection st collection_name = false then
    (cache, [.indicesExists (ow_ns ++ "_" ++ collection_name)], none)
  else
    let p := generate_index_name cache collection_name
    let size : Nat :=
      match limit with
      | some l => if l ≠ 0 then l else 10
      | none => 10
    (p.1,
     [.indicesExists (ow_ns ++ "_" ++ collection_name),
      .searchReq p.2
        { size := none
          source_fields := ["text", "metadata"]
          query := .boolFilter filter }
        (some size)],
     some (result_to_get_result hits))

/-! ### The global-index adapter (`opensearch2.py`) -/

/-- Adapter state of the global-index variant: the persisted global index
name (`None` until first insert; mirrored to a local file) and the engine. -/
structure GState where
  global_index_name : Option String
  engine : EngineState
deriving Repr, DecidableEq

/-- A fresh deployment: `_load_global_index_name` finds no file. -/
def GState.initial (engine : EngineState) : GState :=
  { global_index_name := none, engine := engine }

namespace OW2

/-- The mappings body built by `opensearch2.OpenSearchClient._create_index`
(no stray `"index"` key in this variant). -/
def create_index_body (dimension : Nat) : IndexMappings :=
  { vector_type := "dense_vector"
    dims := dimension
    vector_index_field := none
    similarity := "faiss"
    method := { name := "hnsw", space_type := "ip", engine := "faiss",
                ef_construction := 128, m := 16 } }

/-- `opensearch2.OpenSearchClient._create_index`: guarded by
`has_collection` (which prepends the prefix), and the `indices.create`
call prepends the prefix to its argument again. -/
def create_index (st : EngineState) (collection_name : String)
    (dimension : Nat) : EngineState × List (EngineRequest Flt Meta Val) :=
  if st.contains (ow_ns ++ "_" ++ collection_name) then
    (st, [.indicesExists (ow_ns ++ "_" ++ collection_name)])
  else
    ((ow_ns ++ "_" ++ collection_name) :: st,
     [.indicesExists (ow_ns ++ "_" ++ collection_name),
      .indicesCreate (ow_ns ++ "_" ++ collection_name)
        (create_index_body dimension)])

/-- `opensearch2.OpenSearchClient._get_or_create_index`: on the first call
set `global_index_name` to `f"{self.index_prefix}_global_index"`, call
`_create_index` with that already-prefixed name, and persist it. -/
def get_or_create_index (s : GState) (dimension : Nat) :
    GState × List (EngineRequest Flt Meta Val) :=
  match s.global_index_name with
  | none =>
    let gname := ow_ns ++ "_global_index"
    let r : EngineState × List (EngineRequest Flt Meta Val) :=
      create_index s.engine gname dimension
    ({ global_index_name := some gname, engine := r.1 }, r.2)
  | some _ => (s, [])

/-- `opensearch2.OpenSearchClient.insert`: evaluates
`len(items[0]["vector"])` (an `IndexError` on an empty list), ensures the
global index, then one unbatched bulk with `index=self.global_index_name`. -/
def insert (s : GState) (items : List (VectorItem Flt Meta)) :
    Except PyErr (GState × List (EngineRequest Flt Meta Val)) :=
  match items with
  | [] => .error .indexError
  | it :: _ =>
    let r : GState × List (EngineRequest Flt Meta Val) :=
      get_or_create_index s it.vector.length
    .ok (r.1, r.2 ++ [.bulk r.1.global_index_name (items.map item_index_action)])

/-- `opensearch2.OpenSearchClient.search`: `ValueError` while
`global_index_name` is `None`; otherwise the same cosine `script_score`
query as the per-collection variant, against the stored global name. -/
def search (s : GState) (vectors : List (List Flt)) (limit : Nat)
    (hits : List (Hit Flt Meta)) :
    Except PyErr (EngineRequest Flt Meta Val × SearchResult Flt Meta) :=
  match s.global_index_name with
  | none =>
    .error (.valueError
      "Global index has not been created. Please upload a file first.")
  | some gname =>
    match vectors with
    | [] => .error .indexError
    | v0 :: _ =>
      .ok (.searchReq gname
        { size := some limit
          source_fields := ["text", "metadata"]
          query := .scriptScore .matchAll cosine_script_source v0 }
        none,
        result_to_search_result hits)

/-- `opensearch2.OpenSearchClient.get`: `ValueError` while
`global_index_name` is `None`; otherwise a `match_all` search against the
stored global name. -/
def get (s : GState) (hits : List (Hit Flt Meta)) :
    Except PyErr (EngineRequest Flt Meta Val × GetResult Meta) :=
  match s.global_index_name with
  | none =>
    .error (.valueError
      "Global index has not been created. Please upload a file first.")
  | some gname =>
    .ok (.searchReq gname
      { size := none
        source_fields := ["text", "metadata"]
        query := .matchAll }
      none,
      result_to_get_result hits)

end OW2

/-! ### Helpers for reading request traces -/

/-- The bodies of the bulk requests of a trace, in order. -/
def bulk_bodies : List (EngineRequest Flt Meta Val) → List (List (BulkAction Flt Meta))
  | [] => []
  | .bulk _ b :: rest => b :: bulk_bodies rest
  | .indicesExists _ :: rest => bulk_bodies rest
  | .indicesCreate _ _ :: rest => bulk_bodies rest
  | .indicesDelete _ :: rest => bulk_bodies rest
  | .searchReq _ _ _ :: rest => bulk_bodies rest

/-- The `indices.create` calls of a trace (index name and mappings), in order. -/
def create_reqs : List (EngineRequest Flt Meta Val) → List (String × IndexMappings)
  | [] => []
  | .indicesCreate i m :: rest => (i, m) :: create_reqs rest
  | .indicesExists _ :: rest => create_reqs rest
  | .bulk _ _ :: rest => create_reqs rest
  | .indicesDelete _ :: rest => create_reqs rest
  | .searchReq _ _ _ :: rest => create_reqs rest

/-- The search calls of a trace, in order. -/
def search_calls : List (EngineRequest Flt Meta Val) →
    List (String × SearchBody Flt Val × Option Nat)
  | [] => []
  | .searchReq i b s :: rest => (i, b, s) :: search_calls rest
  | .indicesExists _ :: rest => search_calls rest
  | .indicesCreate _ _ :: rest => search_calls rest
  | .bulk _ _ :: rest => search_calls rest
  | .indicesDelete _ :: rest => search_calls rest

theorem bulk_bodies_append (xs ys : List (EngineRequest Flt Meta Val)) :
    bulk_bodies (xs ++ ys) = bulk_bodies xs ++ bulk_bodies ys := by
  induction xs with
  | nil => simp [bulk_bodies]
  | cons r rest ih =>
    cases r <;> simp [bulk_bodies, ih]

theorem bulk_bodies_map_bulk {T : Type} (l : List T) (ix : Option String)
    (g : T → List (BulkAction Flt Meta)) :
    bulk_bodies
      (l.map (fun b => (EngineRequest.bulk ix (g b) : EngineRequest Flt Meta Val))) =
      l.map g := by
  induction l with
  | nil => simp [bulk_bodies]
  | cons a tl ih => simp [bulk_bodies, ih]

theorem generate_index_name_idem (cache : Cache) (name : String) :
    generate_index_name (generate_index_name cache name).1 name =
      generate_index_name cache name := by
  unfold generate_index_name
  cases h : cache.lookup name with
  | some v => simp [h]
  | none =>
    simp only [h]
    have hl : (cache ++ [(name, ow_ns ++ "_" ++ name)]).lookup name =
        some (ow_ns ++ "_" ++ name) := by
      induction cache with
      | nil => simp [List.lookup]
      | cons a tl ih =>
        cases a with
        | mk k2 v2 =>
          rw [List.lookup] at h
          rcases hk : (name == k2) with _ | _
          · rw [hk] at h
            rw [List.cons_append, List.lookup, hk]
            exact ih h
          · rw [hk] at h
            exact Option.noConfusion h
    simp [hl]

/-- The four batching facts claim C1 needs, bundled. -/
theorem batches_spec {T : Type} (items : List T) :
    (create_batches items 100).length = (items.length + 100 - 1) / 100 ∧
    (create_batches items 100).flatten = items ∧
    (∀ b ∈ create_batches items 100, b.length ≤ 100) ∧
    (∀ b ∈ (create_batches items 100).dropLast, b.length = 100) := by
  have h100 : (0 : Nat) < 100 := by norm_num
  refine ⟨create_batches_count items 100, ?_, ?_, ?_⟩
  · rw [create_batches_eq_chunksOf 100 h100]
    exact chunksOf_flatten 100 h100 items
  · intro b hb
    rw [create_batches_eq_chunksOf 100 h100] at hb
    exact chunksOf_length_le 100 items b hb
  · intro b hb
    rw [create_batches_eq_chunksOf 100 h100] at hb
    exact chunksOf_dropLast_length 100 (by norm_num) items b hb

/-- Invariant of `hash_to_index_map`: every entry maps a collection name to
its prefixed form.  The map starts empty and its only write stores the
prefixed form, so every reachable cache satisfies this. -/
def CacheOK (cache : Cache) : Prop :=
  ∀ kv ∈ cache, kv.2 = ow_ns ++ "_" ++ kv.1

theorem lookup_mem {cache : Cache} {k v : String}
    (h : cache.lookup k = some v) : (k, v) ∈ cache := by
  induction cache with
  | nil => exact Option.noConfusion h
  | cons a tl ih =>
    cases a with
    | mk k2 v2 =>
      rw [List.lookup] at h
      rcases hk : (k == k2) with _ | _
      · rw [hk] at h
        exact List.mem_cons_of_mem _ (ih h)
      · rw [hk] at h
        have hkk : k = k2 := eq_of_beq hk
        have hv : v2 = v := by
          injection h
        subst hkk
        subst hv
        exact List.mem_cons_self _ _

/-! ### Claims -/

/-- C8: the `GetResult` built by the adapter has `ids`, `documents`,
`metadatas` of equal length, entries taken positionally from the engine
hits; the `SearchResult` additionally carries `distances` from the hit
scores at the same positions. -/
theorem claim8_result_alignment {Flt Meta : Type} (hits : List (Hit Flt Meta)) :
    (result_to_get_result hits).ids.length = hits.length ∧
    (result_to_get_result hits).documents.length = hits.length ∧
    (result_to_get_result hits).metadatas.length = hits.length ∧
    (result_to_get_result hits).ids = hits.map Hit.id ∧
    (result_to_get_result hits).documents = hits.map Hit.text ∧
    (result_to_get_result hits).metadatas = hits.map Hit.metadata ∧
    (result_to_search_result hits).ids.length = hits.length ∧
    (result_to_search_result hits).distances.length = hits.length ∧
    (result_to_search_result hits).documents.length = hits.length ∧
    (result_to_search_result hits).metadatas.length = hits.length ∧
    (result_to_search_result hits).ids = hits.map Hit.id ∧
    (result_to_search_result hits).distances = hits.map Hit.score ∧
    (result_to_search_result hits).documents = hits.map Hit.text ∧
    (result_to_search_result hits).metadatas = hits.map Hit.metadata := by
  simp [result_to_get_result, result_to_search_result]

/-- C2: single `search` call shape: a `script_score` over `match_all` with
the cosine script against the FIRST vector only, `size = limit`, and the
hits reshaped positionally into the `SearchResult`. -/
theorem claim2_search_request_shape (Val : Type) {Flt Meta : Type}
    (cache : Cache) (name : String) (v0 : List Flt)
    (rest : List (List Flt)) (limit : Nat) (hits : List (Hit Flt Meta)) :
    search cache name (v0 :: rest) limit hits =
      (.ok (
        (generate_index_name cache name).1,
        .searchReq (generate_index_name cache name).2
          { size := some limit
            source_fields := ["text", "metadata"]
            query := .scriptScore .matchAll cosine_script_source v0 }
          none,
        { ids := hits.map Hit.id
          distances := hits.map Hit.score
          documents := hits.map Hit.text
          metadatas := hits.map Hit.metadata }) :
        Except PyErr (Cache × EngineRequest Flt Meta Val × SearchResult Flt Meta)) := by
  simp [search, result_to_search_result]

/-- C10: when the collection's backing index does not exist, `query`
returns `None` after only the existence check, issuing no search request,
for every filter and limit. -/
theorem claim10_query_missing_index_none (Val : Type) {Flt Meta : Type}
    (st : EngineState) (cache : Cache) (name : String)
    (filter : List (String × Val)) (limit : Option Nat)
    (hits : List (Hit Flt Meta))
    (habs : has_collection st name = false) :
    query st cache name filter limit hits =
      (cache, [.indicesExists (ow_ns ++ "_" ++ name)], none) ∧
    search_calls (query st cache name filter limit hits).2.1 = [] := by
  constructor
  · simp [query, habs]
  · simp [query, habs, search_calls]

theorem claim10_witness :
    query ([] : EngineState) ([] : Cache) "c" [("f", (1 : Int))] (some 5)
        ([] : List (Hit Int Int)) =
      ([], [.indicesExists (ow_ns ++ "_" ++ "c")], none) ∧
    search_calls
      (query ([] : EngineState) ([] : Cache) "c" [("f", (1 : Int))] (some 5)
        ([] : List (Hit Int Int))).2.1 = [] :=
  claim10_query_missing_index_none Int [] [] "c" [("f", 1)] (some 5) []
    (by decide)

/-- C3: with an empty items list, the per-collection `insert`/`upsert`
raise `IndexError` when they reach the dimension derivation
`len(items[0]["vector"])` (i.e. when the index does not already exist),
and the global-index `insert` always does; nothing catches the fault. -/
theorem claim3_empty_items_index_error (Val : Type) {Flt Meta : Type}
    (st : EngineState) (cache : Cache) (name : String) (s : GState)
    (hmiss : st.contains (generate_index_name cache name).2 = false) :
    (insert st cache name ([] : List (VectorItem Flt Meta)) :
        Except PyErr (EngineState × Cache × List (EngineRequest Flt Meta Val))) =
      .error .indexError ∧
    (upsert st cache name ([] : List (VectorItem Flt Meta)) :
        Except PyErr (EngineState × Cache × List (EngineRequest Flt Meta Val))) =
      .error .indexError ∧
    (OW2.insert s ([] : List (VectorItem Flt Meta)) :
        Except PyErr (GState × List (EngineRequest Flt Meta Val))) =
      .error .indexError := by
  have hmem : (generate_index_name cache name).2 ∉ st := by
    simpa using hmiss
  refine ⟨?_, ?_, rfl⟩ <;> simp [insert, upsert, hmem]

theorem claim3_witness :
    (insert ([] : EngineState) ([] : Cache) "c" ([] : List (VectorItem Int Int)) :
        Except PyErr (EngineState × Cache × List (EngineRequest Int Int Int))) =
      .error .indexError ∧
    (upsert ([] : EngineState) ([] : Cache) "c" ([] : List (VectorItem Int Int)) :
        Except PyErr (EngineState × Cache × List (EngineRequest Int Int Int))) =
      .error .indexError ∧
    (OW2.insert (GState.initial []) ([] : List (VectorItem Int Int)) :
        Except PyErr (GState × List (EngineRequest Int Int Int))) =
      .error .indexError :=
  claim3_empty_items_index_error Int [] [] "c" (GState.initial []) (by decide)

/-- The property claim C4 asserts, at one adapter state and one call's
arguments: `search`/`get` raise the `ValueError` exactly when the
persisted global index name is unset; a fresh state (no insert yet) has it
unset; a successful insert leaves it set, after which `search`/`get` no
longer raise that failure. -/
def GlobalNotCreatedSpec (Val : Type) {Flt Meta : Type} (s : GState)
    (vectors : List (List Flt)) (limit : Nat) (hits : List (Hit Flt Meta))
    (eng : EngineState) (items : List (VectorItem Flt Meta)) : Prop :=
  ((∃ m, (OW2.search s vectors limit hits :
      Except PyErr (EngineRequest Flt Meta Val × SearchResult Flt Meta)) =
        .error (.valueError m)) ↔ s.global_index_name = none) ∧
  ((∃ m, (OW2.get s hits :
      Except PyErr (EngineRequest Flt Meta Val × GetResult Meta)) =
        .error (.valueError m)) ↔ s.global_index_name = none) ∧
  (GState.initial eng).global_index_name = none ∧
  (∀ s2 reqs, (OW2.insert s items :
      Except PyErr (GState × List (EngineRequest Flt Meta Val))) = .ok (s2, reqs) →
    s2.global_index_name ≠ none ∧
    (¬ ∃ m, (OW2.search s2 vectors limit hits :
        Except PyErr (EngineRequest Flt Meta Val × SearchResult Flt Meta)) =
          .error (.valueError m)) ∧
    (¬ ∃ m, (OW2.get s2 hits :
        Except PyErr (EngineRequest Flt Meta Val × GetResult Meta)) =
          .error (.valueError m)))

/-- C4: the "global index has not yet been created" `ValueError` of the
global-index adapter is raised by `search`/`get` exactly while the
persisted global index name is unset, and never after an insert. -/
theorem claim4_global_not_created_failure (Val : Type) {Flt Meta : Type}
    (s : GState) (vectors : List (List Flt)) (limit : Nat)
    (hits : List (Hit Flt Meta)) (eng : EngineState)
    (items : List (VectorItem Flt Meta)) :
    GlobalNotCreatedSpec Val s vectors limit hits eng items := by
  have hsearch : ∀ s' : GState,
      (∃ m, (OW2.search s' vectors limit hits :
        Except PyErr (EngineRequest Flt Meta Val × SearchResult Flt Meta)) =
          .error (.valueError m)) ↔ s'.global_index_name = none := by
    intro s'
    cases h : s'.global_index_name with
    | none => simp [OW2.search, h]
    | some g =>
      cases vectors with
      | nil => simp [OW2.search, h]
      | cons v0 rest => simp [OW2.search, h]
  have hget : ∀ s' : GState,
      (∃ m, (OW2.get s' hits :
        Except PyErr (EngineRequest Flt Meta Val × GetResult Meta)) =
          .error (.valueError m)) ↔ s'.global_index_name = none := by
    intro s'
    cases h : s'.global_index_name with
    | none => simp [OW2.get, h]
    | some g => simp [OW2.get, h]
  refine ⟨hsearch s, hget s, rfl, ?_⟩
  intro s2 reqs hok
  have h2 : s2.global_index_name ≠ none := by
    cases items with
    | nil => simp [OW2.insert] at hok
    | cons it tl =>
      cases h : s.global_index_name with
      | none =>
        simp [OW2.insert, OW2.get_or_create_index, h] at hok
        rw [← hok.1]
        simp
      | some g =>
        simp [OW2.insert, OW2.get_or_create_index, h] at hok
        rw [← hok.1, h]
        simp
  exact ⟨h2, fun hex => h2 ((hsearch s2).mp hex),
    fun hex => h2 ((hget s2).mp hex)⟩

theorem claim4_witness :
    GlobalNotCreatedSpec Int (GState.initial []) [[(1 : Int)]] 5
      ([] : List (Hit Int Int)) []
      [{ id := "a", vector := [1], text := "t", metadata := (0 : Int) }] :=
  claim4_global_not_created_failure Int (GState.initial []) [[(1 : Int)]] 5
    ([] : List (Hit Int Int)) []
    [{ id := "a", vector := [1], text := "t", metadata := 0 }]

/-- The property of one `query` call as amended for C5: a `bool` body with
one `term` clause per filter entry in order, no scoring, and a `size` that
equals the limit when a NONZERO limit is given and 10 when the limit is
absent or 0 (Python `limit if limit else 10` treats 0 as falsy). -/
def QueryFilterSpec (Val : Type) {Flt Meta : Type} (st : EngineState)
    (cache : Cache) (name : String) (filter : List (String × Val))
    (limit : Option Nat) (hits : List (Hit Flt Meta)) : Prop :=
  query st cache name filter limit hits =
    ((generate_index_name cache name).1,
     [.indicesExists (ow_ns ++ "_" ++ name),
      .searchReq (generate_index_name cache name).2
        { size := none
          source_fields := ["text", "metadata"]
          query := .boolFilter filter }
        (some (match limit with
               | some l => if l ≠ 0 then l else 10
               | none => 10))],
     some (result_to_get_result hits))

/-- C5 (amended): `query` issues one conjunctive `term` clause per filter
entry with no similarity scoring; the requested size is the limit when a
nonzero limit is given, and 10 when the limit is absent or zero. -/
theorem claim5_query_filter_shape (Val : Type) {Flt Meta : Type}
    (st : EngineState) (cache : Cache) (name : String)
    (filter : List (String × Val)) (limit : Option Nat)
    (hits : List (Hit Flt Meta))
    (hcol : has_collection st name = true) :
    QueryFilterSpec Val st cache name filter limit hits := by
  unfold QueryFilterSpec
  simp [query, hcol]

/-- C5 counterexample: with `limit = some 0` the claim as stated requires
the requested size to be 0, but the code requests 10. -/
theorem claim5_counterexample :
    search_calls (query (["open_webui_c"] : EngineState) ([] : Cache) "c"
        [("f", (1 : Int))] (some 0) ([] : List (Hit Int Int))).2.1 =
      [("open_webui_c",
        { size := none
          source_fields := ["text", "metadata"]
          query := .boolFilter [("f", 1)] },
        some 10)] ∧
    some (10 : Nat) ≠ some 0 := by
  constructor
  · decide
  · decide

theorem claim5_witness :
    QueryFilterSpec Int ["open_webui_c"] ([] : Cache) "c" [("f", (1 : Int))]
      (some 5) ([] : List (Hit Int Int)) :=
  claim5_query_filter_shape Int ["open_webui_c"] [] "c" [("f", 1)] (some 5)
    [] (by decide)

theorem insert_ok_bulk {Flt Meta Val : Type} (st : EngineState) (cache : Cache)
    (name : String) (items : List (VectorItem Flt Meta)) (hne : items ≠ []) :
    ∃ oi : EngineState × Cache × List (EngineRequest Flt Meta Val),
      insert st cache name items = .ok oi ∧
      bulk_bodies oi.2.2 =
        (create_batches items 100).map
          (fun batch => batch.map item_index_action) := by
  rcases items with _ | ⟨it, tl⟩
  · exact absurd rfl hne
  by_cases hc : (generate_index_name cache name).2 ∈ st
  · refine ⟨⟨st, (generate_index_name cache name).1,
      .indicesExists (generate_index_name cache name).2 ::
        (create_batches (it :: tl) 100).map
          (fun batch => .bulk none (batch.map item_index_action))⟩, ?_, ?_⟩
    · simp [insert, hc]
    · simp [bulk_bodies, bulk_bodies_map_bulk]
  · refine ⟨⟨(generate_index_name cache name).2 :: st,
      (generate_index_name cache name).1,
      .indicesExists (generate_index_name cache name).2 ::
        ([.indicesExists (generate_index_name cache name).2,
          .indicesCreate (generate_index_name cache name).2
            (create_index_body name it.vector.length)] ++
         (create_batches (it :: tl) 100).map
           (fun batch => .bulk none (batch.map item_index_action)))⟩, ?_, ?_⟩
    · simp [insert, create_index, generate_index_name_idem, hc]
    · simp [bulk_bodies, bulk_bodies_append, bulk_bodies_map_bulk]

theorem upsert_ok_bulk {Flt Meta Val : Type} (st : EngineState) (cache : Cache)
    (name : String) (items : List (VectorItem Flt Meta)) (hne : items ≠ []) :
    ∃ ou : EngineState × Cache × List (EngineRequest Flt Meta Val),
      upsert st cache name items = .ok ou ∧
      bulk_bodies ou.2.2 =
        (create_batches items 100).map
          (fun batch =>
            batch.map (item_update_action (generate_index_name cache name).2)) := by
  rcases items with _ | ⟨it, tl⟩
  · exact absurd rfl hne
  by_cases hc : (generate_index_name cache name).2 ∈ st
  · refine ⟨⟨st, (generate_index_name cache name).1,
      .indicesExists (generate_index_name cache name).2 ::
        (create_batches (it :: tl) 100).map
          (fun batch =>
            .bulk none
              (batch.map (item_update_action (generate_index_name cache name).2)))⟩,
      ?_, ?_⟩
    · simp [upsert, hc]
    · simp [bulk_bodies, bulk_bodies_map_bulk]
  · refine ⟨⟨(generate_index_name cache name).2 :: st,
      (generate_index_name cache name).1,
      .indicesExists (generate_index_name cache name).2 ::
        ([.indicesExists (generate_index_name cache name).2,
          .indicesCreate (generate_index_name cache name).2
            (create_index_body name it.vector.length)] ++
         (create_batches (it :: tl) 100).map
           (fun batch =>
             .bulk none
               (batch.map (item_update_action (generate_index_name cache name).2))))⟩,
      ?_, ?_⟩
    · simp [upsert, create_index, generate_index_name_idem, hc]
    · simp [bulk_bodies, bulk_bodies_append, bulk_bodies_map_bulk]

/-- The property claim C1 asserts of one `insert` and one `upsert` call on
a non-empty item list: each succeeds and issues exactly one bulk request
per chunk, the chunk's items becoming the actions in order, and the chunks
partition the item list in order into `ceil(n/100)` consecutive pieces of
at most 100 items, all but the last of exactly 100. -/
def InsertUpsertBatchingSpec (Val : Type) {Flt Meta : Type}
    (st : EngineState) (cache : Cache) (name : String)
    (items : List (VectorItem Flt Meta)) : Prop :=
  (∃ oi : EngineState × Cache × List (EngineRequest Flt Meta Val),
    insert st cache name items = .ok oi ∧
    bulk_bodies oi.2.2 =
      (create_batches items 100).map
        (fun batch => batch.map item_index_action)) ∧
  (∃ ou : EngineState × Cache × List (EngineRequest Flt Meta Val),
    upsert st cache name items = .ok ou ∧
    bulk_bodies ou.2.2 =
      (create_batches items 100).map
        (fun batch =>
          batch.map (item_update_action (generate_index_name cache name).2))) ∧
  (create_batches items 100).length = (items.length + 100 - 1) / 100 ∧
  (create_batches items 100).flatten = items ∧
  (∀ b ∈ create_batches items 100, b.length ≤ 100) ∧
  (∀ b ∈ (create_batches items 100).dropLast, b.length = 100)

/-- C1: `insert`/`upsert` split a non-empty item list into `ceil(n/100)`
consecutive chunks of at most 100 (only the last smaller), issue one bulk
request per chunk, and every item appears in exactly one chunk in the
original order. -/
theorem claim1_insert_upsert_batching (Val : Type) {Flt Meta : Type}
    (st : EngineState) (cache : Cache) (name : String)
    (items : List (VectorItem Flt Meta)) (hne : items ≠ []) :
    InsertUpsertBatchingSpec Val st cache name items := by
  obtain ⟨hcnt, hflat, hle, hlast⟩ := batches_spec items
  exact ⟨insert_ok_bulk st cache name items hne,
         upsert_ok_bulk st cache name items hne, hcnt, hflat, hle, hlast⟩

theorem claim1_witness :
    InsertUpsertBatchingSpec Int ([] : EngineState) ([] : Cache) "c"
      [{ id := "a", vector := [(1 : Int)], text := "t", metadata := (0 : Int) }] :=
  claim1_insert_upsert_batching Int [] [] "c"
    [{ id := "a", vector := [(1 : Int)], text := "t", metadata := (0 : Int) }]
    (by simp)

/-- The property claim C6 asserts of `get_or_create_index` at one state:
no creation when the collection's index exists; a second call changes
nothing and creates nothing; any creation it performs uses the fixed
dense-vector/HNSW body of the given dimension. -/
def GetOrCreateSpec (Flt Meta Val : Type) (st : EngineState) (cache : Cache)
    (name : String) (dim : Nat) : Prop :=
  let r1 : EngineState × Cache × List (EngineRequest Flt Meta Val) :=
    get_or_create_index st cache name dim
  let r2 : EngineState × Cache × List (EngineRequest Flt Meta Val) :=
    get_or_create_index r1.1 r1.2.1 name dim
  (has_collection st name = true →
    r1 = (st, cache, [.indicesExists (ow_ns ++ "_" ++ name)])) ∧
  r2.1 = r1.1 ∧
  r2.2.1 = r1.2.1 ∧
  create_reqs r2.2.2 = [] ∧
  (∀ ix m, (ix, m) ∈ create_reqs r1.2.2 → m = create_index_body name dim) ∧
  (create_index_body name dim).dims = dim ∧
  (create_index_body name dim).vector_type = "dense_vector" ∧
  (create_index_body name dim).method.name = "hnsw" ∧
  (create_index_body name dim).method.space_type = "ip" ∧
  (create_index_body name dim).method.ef_construction = 128 ∧
  (create_index_body name dim).method.m = 16

/-- C6: `get_or_create_index` is an idempotent create-if-absent whose
created schema fixes a dense-vector field of the given dimension with an
HNSW method over inner-product space, `ef_construction = 128`, `m = 16`. -/
theorem claim6_get_or_create_idempotent (Flt Meta Val : Type)
    (st : EngineState) (cache : Cache) (name : String) (dim : Nat) :
    GetOrCreateSpec Flt Meta Val st cache name dim := by
  simp only [GetOrCreateSpec]
  refine ⟨fun h1 => by simp [get_or_create_index, h1], ?_⟩
  by_cases h1 : has_collection st name
  · simp [get_or_create_index, h1, create_reqs, create_index_body]
  · by_cases h2 : (generate_index_name cache name).2 ∈ st
    · simp [get_or_create_index, create_index, generate_index_name_idem,
        h1, h2, create_reqs, create_index_body]
    · by_cases h3 :
        has_collection ((generate_index_name cache name).2 :: st) name
      · simp [get_or_create_index, create_index, generate_index_name_idem,
          h1, h2, h3, create_reqs, create_index_body]
      · simp [get_or_create_index, create_index, generate_index_name_idem,
          h1, h2, h3, create_reqs, create_index_body]

theorem claim6_witness :
    GetOrCreateSpec Int Int Int [] [] "c" 3 :=
  claim6_get_or_create_idempotent Int Int Int [] [] "c" 3

/-- The property claim C7 asserts of `_generate_index_name` at one cache
state: the returned engine index name is the fixed prefix, an underscore,
then the collection name; a repeated call returns the same name; the
reachable-cache invariant holds initially and is preserved by the call. -/
def IndexNameSpec (cache : Cache) (name : String) : Prop :=
  (generate_index_name cache name).2 = ow_ns ++ "_" ++ name ∧
  (generate_index_name (generate_index_name cache name).1 name).2 =
    (generate_index_name cache name).2 ∧
  CacheOK (generate_index_name cache name).1 ∧
  CacheOK []

/-- C7: the engine index name is deterministic —
`"open_webui" ++ "_" ++ collection_name` — on every cache the adapter can
actually reach (the cache starts empty and its only write stores exactly
that name), so the mapping is reconstructible after the cache is lost. -/
theorem claim7_index_name_deterministic (cache : Cache) (name : String)
    (hok : CacheOK cache) : IndexNameSpec cache name := by
  have hpres : CacheOK (generate_index_name cache name).1 := by
    cases h : cache.lookup name with
    | some v =>
      simp only [generate_index_name, h]
      exact hok
    | none =>
      simp only [generate_index_name, h]
      intro kv hkv
      rcases List.mem_append.mp hkv with hm | hm
      · exact hok kv hm
      · rw [List.mem_singleton] at hm
        subst hm
        rfl
  refine ⟨?_, ?_, hpres, by simp [CacheOK]⟩
  · cases h : cache.lookup name with
    | some v =>
      simp only [generate_index_name, h]
      simpa using hok (name, v) (lookup_mem h)
    | none => simp [generate_index_name, h]
  · exact congrArg Prod.snd (generate_index_name_idem cache name)

theorem claim7_witness : IndexNameSpec [] "c" :=
  claim7_index_name_deterministic [] "c" (by simp [CacheOK])

/-- The property claim C9 asserts for a first insert on a fresh
global-index adapter: the create call targets the doubly-prefixed
`"open_webui_open_webui_global_index"`, while the bulk write of the same
insert and all subsequent `search`/`get` calls target the singly-prefixed
stored `"open_webui_global_index"`, which is a different index name. -/
def DoublePrefixSpec (Val : Type) {Flt Meta : Type} (eng : EngineState)
    (it : VectorItem Flt Meta) (tl : List (VectorItem Flt Meta))
    (v0 : List Flt) (rest : List (List Flt)) (limit : Nat)
    (hits : List (Hit Flt Meta)) : Prop :=
  ∃ s2 : GState,
    (OW2.insert (GState.initial eng) (it :: tl) :
      Except PyErr (GState × List (EngineRequest Flt Meta Val))) =
      .ok (s2,
        [.indicesExists "open_webui_open_webui_global_index",
         .indicesCreate "open_webui_open_webui_global_index"
           (OW2.create_index_body it.vector.length),
         .bulk (some "open_webui_global_index")
           ((it :: tl).map item_index_action)]) ∧
    s2.global_index_name = some "open_webui_global_index" ∧
    ("open_webui_open_webui_global_index" : String) ≠
      "open_webui_global_index" ∧
    (OW2.search s2 (v0 :: rest) limit hits :
      Except PyErr (EngineRequest Flt Meta Val × SearchResult Flt Meta)) =
      .ok (.searchReq "open_webui_global_index"
        { size := some limit
          source_fields := ["text", "metadata"]
          query := .scriptScore .matchAll cosine_script_source v0 }
        none,
        result_to_search_result hits) ∧
    (OW2.get s2 hits :
      Except PyErr (EngineRequest Flt Meta Val × GetResult Meta)) =
      .ok (.searchReq "open_webui_global_index"
        { size := none
          source_fields := ["text", "metadata"]
          query := .matchAll }
        none,
        result_to_get_result hits)

/-- C9: on first insert the global-index adapter creates
`"open_webui_open_webui_global_index"` (prefix applied twice) but writes
and reads `"open_webui_global_index"`, so the created index is never the
one used. -/
theorem claim9_double_prefix (Val : Type) {Flt Meta : Type}
    (eng : EngineState) (it : VectorItem Flt Meta)
    (tl : List (VectorItem Flt Meta)) (v0 : List Flt)
    (rest : List (List Flt)) (limit : Nat) (hits : List (Hit Flt Meta))
    (hmiss : ("open_webui_open_webui_global_index" : String) ∉ eng) :
    DoublePrefixSpec Val eng it tl v0 rest limit hits := by
  have h1 : ow_ns ++ "_" ++ (ow_ns ++ "_global_index") =
      "open_webui_open_webui_global_index" := rfl
  have h2 : ow_ns ++ "_global_index" = "open_webui_global_index" := rfl
  have h3 : ow_ns ++ "_" ++ "open_webui_global_index" =
      "open_webui_open_webui_global_index" := rfl
  refine ⟨{ global_index_name := some "open_webui_global_index",
            engine := "open_webui_open_webui_global_index" :: eng },
    ?_, rfl, by decide, ?_, ?_⟩
  · simp [OW2.insert, OW2.get_or_create_index, OW2.create_index,
      GState.initial, h1, h2, h3, hmiss]
  · simp [OW2.search]
  · simp [OW2.get]

theorem claim9_witness :
    DoublePrefixSpec Int ([] : EngineState)
      { id := "a", vector := [(1 : Int)], text := "t", metadata := (0 : Int) }
      [] [(1 : Int)] [] 5 ([] : List (Hit Int Int)) :=
  claim9_double_prefix Int []
    { id := "a", vector := [(1 : Int)], text := "t", metadata := (0 : Int) }
    [] [(1 : Int)] [] 5 ([] : List (Hit Int Int)) (by decide)

end OWVec
